import Mathlib

/-!
Shallow embedding of the phpser decoder: src/parse.rs (Cursor, Value::parse,
the read_* grammar functions), src/source.rs (Source trait, ByteReader),
src/str_trait.rs (the raw-byte Str instance for slices), src/types.rs
(Value and friends) and src/error.rs (Error).  Byte strings are modelled as
List Nat.  The IoError wrapper is folded into Error: the in-memory Cursor
never produces an Io variant, and the From conversion in error.rs
reclassifies an io end-of-file into Error.UnexpectedEof, which is how the
ByteReader model below reports end of input directly.
-/

namespace Phpser

/-- Parse errors, translated from enum Error in src/error.rs. -/
inductive Error where
  | UnexpectedEof
  | BadEncoding (offset : Nat)
  | BadToken (offset : Nat)
  | BadNumber (offset : Nat)
  | BadArrayKeyType (offset : Nat)
  | BadObjectKeyType (offset : Nat)
deriving Repr, DecidableEq

/-- Array keys, translated from enum ArrayKey in src/types.rs. -/
inductive ArrayKey where
  | int (i : Int)
  | str (s : List Nat)
deriving Repr, DecidableEq

/-- Property visibility, translated from enum PropertyVis in src/types.rs
(Private carries the declaring class). -/
inductive PropertyVis where
  | priv (declaringClass : List Nat)
  | prot
  | pub
deriving Repr, DecidableEq

/-- Decoded values, translated from enum Value in src/types.rs.  The Object
and PropertyName structs are inlined: an object is a class name plus an
ordered list of (visibility, name, value) triples; Serializable is a class
name plus an opaque payload; Ref is a plain index.  A float is represented
by the raw byte string accepted by the f64 literal syntax, since no claim
depends on the numeric value of a float. -/
inductive Value where
  | null
  | bool (b : Bool)
  | int (i : Int)
  | float (raw : List Nat)
  | str (s : List Nat)
  | array (items : List (ArrayKey × Value))
  | object (cls : List Nat) (props : List (PropertyVis × List Nat × Value))
  | serializable (cls : List Nat) (data : List Nat)
  | reference (idx : Nat)
deriving Repr

/-- Cursor over an in-memory byte string, from src/parse.rs lines 6-16. -/
structure Cursor where
  offset : Nat
  source : List Nat
deriving Repr, DecidableEq

/-- Position of the first occurrence of ch in a list (Iterator::position). -/
def posOf (ch : Nat) : List Nat → Option Nat
  | [] => none
  | b :: rest => if b = ch then some 0 else (posOf ch rest).map (fun k => k + 1)

/-- Str::find for the raw-byte instance (src/str_trait.rs lines 187-197):
search for ch strictly after index i, returning an absolute index. -/
def bytesFind (s : List Nat) (i ch : Nat) : Option Nat :=
  (posOf ch (s.drop (i + 1))).map (fun k => i + 1 + k)

/-- Str::get_u8_char for the raw-byte instance (src/str_trait.rs lines
173-178).  The source performs an unchecked read under the precondition
i < len, always returning Some; the model uses a checked lookup, which
agrees with it wherever the precondition holds (the Cursor guard below
establishes it before every call). -/
def bytesGetU8Char (s : List Nat) (i : Nat) : Option Nat := s[i]?

/-- Str::clone_slice for the raw-byte instance (src/str_trait.rs lines
180-185): the byte range from i inclusive to j exclusive, always Some. -/
def bytesCloneSlice (s : List Nat) (i j : Nat) : Option (List Nat) :=
  some ((s.drop i).take (j - i))

/-- Cursor::read_u8_char (src/parse.rs lines 27-38).  Note the guard in the
source is offset + 1 >= len, so the final byte of the buffer is never
readable. -/
def Cursor.read_u8_char (c : Cursor) : Except Error Nat × Cursor :=
  if c.offset + 1 ≥ c.source.length then (.error .UnexpectedEof, c)
  else
    match bytesGetU8Char c.source c.offset with
    | some b => (.ok b, ⟨c.offset + 1, c.source⟩)
    | none => (.error (.BadEncoding c.offset), c)

/-- Cursor::read_str (src/parse.rs lines 40-52).  The guard in the source is
j >= len, so a read that would end exactly at the end of the buffer fails. -/
def Cursor.read_str (c : Cursor) (n : Nat) : Except Error (List Nat) × Cursor :=
  if c.offset + n ≥ c.source.length then (.error .UnexpectedEof, c)
  else
    match bytesCloneSlice c.source c.offset (c.offset + n) with
    | some r => (.ok r, ⟨c.offset + n, c.source⟩)
    | none => (.error (.BadEncoding c.offset), c)

/-- Cursor::read_until (src/parse.rs lines 54-60): find the delimiter
strictly after the current offset, then read_str up to that index.  The
delimiter itself is not consumed, and the bytes between the current offset
and the found index (which may include a delimiter sitting exactly at the
current offset) are returned. -/
def Cursor.read_until (c : Cursor) (ch : Nat) : Except Error (List Nat) × Cursor :=
  match bytesFind c.source c.offset ch with
  | some p => c.read_str (p - c.offset)
  | none => (.error .UnexpectedEof, c)

/-- ByteReader over a bounded stream (src/source.rs lines 88-147).  The
BufReader over io::Take is modelled by the list of bytes still available,
already capped at limit.  The offset field is written once at construction
and never updated by any method of the source. -/
structure ByteReader where
  rem : List Nat
  offset : Nat
  limit : Nat
deriving Repr, DecidableEq

/-- ByteReader::new (src/source.rs lines 102-114): take(limit) caps the
bytes the stream may yield. -/
def ByteReader.new (input : List Nat) (limit : Nat) : ByteReader :=
  ⟨input.take limit, 0, limit⟩

/-- ByteReader::read_u8_char (src/source.rs lines 126-130): read_exact of a
single byte; an exhausted stream gives the io end-of-file that the From
conversion turns into UnexpectedEof. -/
def ByteReader.read_u8_char (br : ByteReader) : Except Error Nat × ByteReader :=
  match br.rem with
  | [] => (.error .UnexpectedEof, br)
  | b :: rest => (.ok b, ⟨rest, br.offset, br.limit⟩)

/-- ByteReader::read_str (src/source.rs lines 132-140): the limit check,
then read_exact of n bytes.  On a short read the amount read_exact consumed
is unspecified in the source and unobservable in the claims; the model
leaves the remainder unchanged in that case. -/
def ByteReader.read_str (br : ByteReader) (n : Nat) : Except Error (List Nat) × ByteReader :=
  if n > br.limit then (.error .UnexpectedEof, br)
  else if br.rem.length < n then (.error .UnexpectedEof, br)
  else (.ok (br.rem.take n), ⟨br.rem.drop n, br.offset, br.limit⟩)

/-- ByteReader::read_until (src/source.rs lines 142-146): BufRead::read_until
semantics: consume up to and including the delimiter and return everything
consumed, delimiter included; if the delimiter never occurs, consume to end
of stream and return Ok with whatever was read, with no error. -/
def ByteReader.read_until (br : ByteReader) (ch : Nat) : Except Error (List Nat) × ByteReader :=
  match posOf ch br.rem with
  | some i => (.ok (br.rem.take (i + 1)), ⟨br.rem.drop (i + 1), br.offset, br.limit⟩)
  | none => (.ok br.rem, ⟨[], br.offset, br.limit⟩)

/-- The Source trait (src/source.rs lines 12-59) as a record of operations
over a state type, so the grammar functions below are written once and
instantiated at each implementation, mirroring the generic Rust code. -/
structure SourceOps (σ : Type) where
  offset : σ → Nat
  limit : σ → Nat
  read_u8_char : σ → Except Error Nat × σ
  read_str : σ → Nat → Except Error (List Nat) × σ
  read_until : σ → Nat → Except Error (List Nat) × σ

/-- The Source instance for Cursor (src/parse.rs lines 18-61): limit is the
whole buffer length. -/
def cursorOps : SourceOps Cursor :=
  ⟨Cursor.offset, fun c => c.source.length,
    Cursor.read_u8_char, Cursor.read_str, Cursor.read_until⟩

/-- The Source instance for ByteReader (src/source.rs lines 117-147). -/
def byteReaderOps : SourceOps ByteReader :=
  ⟨ByteReader.offset, ByteReader.limit,
    ByteReader.read_u8_char, ByteReader.read_str, ByteReader.read_until⟩

/-- ASCII decimal digit test. -/
def isDigit (b : Nat) : Bool := 48 ≤ b && b ≤ 57

/-- Numeric value of a digit string. -/
def digitsToNat (l : List Nat) : Nat := l.foldl (fun acc b => acc * 10 + (b - 48)) 0

/-- Model of usize as FromStr on a 64-bit target: an optional leading plus
sign, then at least one digit, value below 2 to the 64; anything else,
including bytes that are not valid UTF-8, fails.  parse_before maps both a
UTF-8 failure and a FromStr failure to BadNumber at the same offset, so the
two failure stages are folded into this single acceptor. -/
def parseUsize (bs : List Nat) : Option Nat :=
  let ds := if bs.head? = some 43 then bs.tail else bs
  if ds = [] then none
  else if ds.all isDigit then
    if digitsToNat ds < 2 ^ 64 then some (digitsToNat ds) else none
  else none

/-- Model of i64 as FromStr: optional sign, digits, two-complement range. -/
def parseI64 (bs : List Nat) : Option Int :=
  match bs with
  | 43 :: ds =>
    if ds = [] then none
    else if ds.all isDigit then
      if digitsToNat ds < 2 ^ 63 then some (digitsToNat ds : Int) else none
    else none
  | 45 :: ds =>
    if ds = [] then none
    else if ds.all isDigit then
      if digitsToNat ds ≤ 2 ^ 63 then some (-(digitsToNat ds : Int)) else none
    else none
  | ds =>
    if ds = [] then none
    else if ds.all isDigit then
      if digitsToNat ds < 2 ^ 63 then some (digitsToNat ds : Int) else none
    else none

/-- Lower-case an ASCII byte. -/
def toLowerByte (b : Nat) : Nat := if 65 ≤ b ∧ b ≤ 90 then b + 32 else b

/-- Mantissa of the f64 literal grammar: digits, digits dot digits, dot
digits or digits dot, with at least one digit. -/
def mantissaOk (bs : List Nat) : Bool :=
  match posOf 46 bs with
  | none => !bs.isEmpty && bs.all isDigit
  | some i =>
    let intPart := bs.take i
    let fracPart := bs.drop (i + 1)
    intPart.all isDigit && fracPart.all isDigit && (!intPart.isEmpty || !fracPart.isEmpty)

/-- Exponent of the f64 literal grammar: optional sign then digits. -/
def expOk (bs : List Nat) : Bool :=
  match bs with
  | 43 :: ds => !ds.isEmpty && ds.all isDigit
  | 45 :: ds => !ds.isEmpty && ds.all isDigit
  | ds => !ds.isEmpty && ds.all isDigit

/-- First exponent marker, letter e or E. -/
def findExpByte (bs : List Nat) : Option Nat :=
  match posOf 101 bs with
  | some i => some i
  | none => posOf 69 bs

/-- Model of f64 as FromStr, as a syntax acceptor: optional sign, then inf,
infinity or nan in any letter case, or mantissa with optional exponent.
f64 parsing never fails on overflow, only on syntax. -/
def parseF64Ok (bs : List Nat) : Bool :=
  let body := match bs with
    | 43 :: rest => rest
    | 45 :: rest => rest
    | rest => rest
  let lower := body.map toLowerByte
  if lower = [105, 110, 102] then true
  else if lower = [105, 110, 102, 105, 110, 105, 116, 121] then true
  else if lower = [110, 97, 110] then true
  else
    match findExpByte body with
    | some i => mantissaOk (body.take i) && expOk (body.drop (i + 1))
    | none => mantissaOk body

/-- parse_before at usize (src/parse.rs lines 235-245): read_until the
delimiter, then convert; a failed conversion is BadNumber at the offset the
source reports after read_until. -/
def parse_before_usize {σ : Type} (ops : SourceOps σ) (s : σ) (ch : Nat) :
    Except Error Nat × σ :=
  match ops.read_until s ch with
  | (.error e, s1) => (.error e, s1)
  | (.ok bs, s1) =>
    match parseUsize bs with
    | some n => (.ok n, s1)
    | none => (.error (.BadNumber (ops.offset s1)), s1)

/-- parse_before at i64 (src/parse.rs lines 235-245). -/
def parse_before_i64 {σ : Type} (ops : SourceOps σ) (s : σ) (ch : Nat) :
    Except Error Int × σ :=
  match ops.read_until s ch with
  | (.error e, s1) => (.error e, s1)
  | (.ok bs, s1) =>
    match parseI64 bs with
    | some n => (.ok n, s1)
    | none => (.error (.BadNumber (ops.offset s1)), s1)

/-- parse_before at f64 (src/parse.rs lines 235-245), returning the raw
accepted bytes. -/
def parse_before_f64 {σ : Type} (ops : SourceOps σ) (s : σ) (ch : Nat) :
    Except Error (List Nat) × σ :=
  match ops.read_until s ch with
  | (.error e, s1) => (.error e, s1)
  | (.ok bs, s1) =>
    if parseF64Ok bs then (.ok bs, s1) else (.error (.BadNumber (ops.offset s1)), s1)

/-- expect_char (src/parse.rs lines 227-233). -/
def expect_char {σ : Type} (ops : SourceOps σ) (s : σ) (ch : Nat) :
    Except Error Unit × σ :=
  match ops.read_u8_char s with
  | (.error e, s1) => (.error e, s1)
  | (.ok b, s1) =>
    if b = ch then (.ok (), s1) else (.error (.BadToken (ops.offset s1)), s1)

/-- read_null (src/parse.rs lines 87-90). -/
def read_null {σ : Type} (ops : SourceOps σ) (s : σ) : Except Error Value × σ :=
  match expect_char ops s 59 with
  | (.error e, s1) => (.error e, s1)
  | (.ok _, s1) => (.ok .null, s1)

/-- read_bool (src/parse.rs lines 92-101). -/
def read_bool {σ : Type} (ops : SourceOps σ) (s : σ) : Except Error Value × σ :=
  match expect_char ops s 58 with
  | (.error e, s1) => (.error e, s1)
  | (.ok _, s1) =>
    match ops.read_u8_char s1 with
    | (.error e, s2) => (.error e, s2)
    | (.ok b, s2) =>
      match (if b = 49 then some true else if b = 48 then some false else none) with
      | none => (.error (.BadNumber (ops.offset s2)), s2)
      | some v =>
        match expect_char ops s2 59 with
        | (.error e, s3) => (.error e, s3)
        | (.ok _, s3) => (.ok (.bool v), s3)

/-- read_int (src/parse.rs lines 103-109). -/
def read_int {σ : Type} (ops : SourceOps σ) (s : σ) : Except Error Value × σ :=
  match expect_char ops s 58 with
  | (.error e, s1) => (.error e, s1)
  | (.ok _, s1) =>
    match parse_before_i64 ops s1 59 with
    | (.error e, s2) => (.error e, s2)
    | (.ok n, s2) => (.ok (.int n), s2)

/-- read_float (src/parse.rs lines 111-117). -/
def read_float {σ : Type} (ops : SourceOps σ) (s : σ) : Except Error Value × σ :=
  match expect_char ops s 58 with
  | (.error e, s1) => (.error e, s1)
  | (.ok _, s1) =>
    match parse_before_f64 ops s1 59 with
    | (.error e, s2) => (.error e, s2)
    | (.ok raw, s2) => (.ok (.float raw), s2)

/-- read_string (src/parse.rs lines 119-127). -/
def read_string {σ : Type} (ops : SourceOps σ) (s : σ) : Except Error Value × σ :=
  match expect_char ops s 58 with
  | (.error e, s1) => (.error e, s1)
  | (.ok _, s1) =>
    match parse_before_usize ops s1 58 with
    | (.error e, s2) => (.error e, s2)
    | (.ok len, s2) =>
      match expect_char ops s2 34 with
      | (.error e, s3) => (.error e, s3)
      | (.ok _, s3) =>
        match ops.read_str s3 len with
        | (.error e, s4) => (.error e, s4)
        | (.ok content, s4) =>
          match expect_char ops s4 34 with
          | (.error e, s5) => (.error e, s5)
          | (.ok _, s5) =>
            match expect_char ops s5 59 with
            | (.error e, s6) => (.error e, s6)
            | (.ok _, s6) => (.ok (.str content), s6)

/-- read_ser (src/parse.rs lines 204-218). -/
def read_ser {σ : Type} (ops : SourceOps σ) (s : σ) : Except Error Value × σ :=
  match expect_char ops s 58 with
  | (.error e, s1) => (.error e, s1)
  | (.ok _, s1) =>
    match parse_before_usize ops s1 58 with
    | (.error e, s2) => (.error e, s2)
    | (.ok classLen, s2) =>
      match expect_char ops s2 34 with
      | (.error e, s3) => (.error e, s3)
      | (.ok _, s3) =>
        match ops.read_str s3 classLen with
        | (.error e, s4) => (.error e, s4)
        | (.ok cls, s4) =>
          match expect_char ops s4 34 with
          | (.error e, s5) => (.error e, s5)
          | (.ok _, s5) =>
            match expect_char ops s5 58 with
            | (.error e, s6) => (.error e, s6)
            | (.ok _, s6) =>
              match parse_before_usize ops s6 58 with
              | (.error e, s7) => (.error e, s7)
              | (.ok dataLen, s7) =>
                match expect_char ops s7 123 with
                | (.error e, s8) => (.error e, s8)
                | (.ok _, s8) =>
                  match ops.read_str s8 dataLen with
                  | (.error e, s9) => (.error e, s9)
                  | (.ok data, s9) =>
                    match expect_char ops s9 125 with
                    | (.error e, s10) => (.error e, s10)
                    | (.ok _, s10) => (.ok (.serializable cls data), s10)

/-- read_ref (src/parse.rs lines 220-225). -/
def read_ref {σ : Type} (ops : SourceOps σ) (s : σ) : Except Error Value × σ :=
  match expect_char ops s 58 with
  | (.error e, s1) => (.error e, s1)
  | (.ok _, s1) =>
    match parse_before_usize ops s1 59 with
    | (.error e, s2) => (.error e, s2)
    | (.ok n, s2) => (.ok (.reference n), s2)

/-- Visibility demangling of one raw property name (src/parse.rs lines
170-193).  The state s1 is only consulted for the offset reported by the
BadToken branch, exactly as the source captures source.offset() there. -/
def demangle {σ : Type} (ops : SourceOps σ) (s1 : σ) (name : List Nat) :
    Except Error (List Nat × PropertyVis) :=
  if name[0]? = some 0 then
    if name[1]? = some 42 then
      if name[2]? ≠ some 0 then .error (.BadToken (ops.offset s1))
      else .ok (name.drop 3, .prot)
    else
      match posOf 0 (name.drop 1) with
      | none => .error .UnexpectedEof
      | some k => .ok (name.drop (k + 1 + 1), .priv ((name.drop 1).take (k + 1 - 1)))
  else .ok (name, .pub)

/-- Loop body of read_array (src/parse.rs lines 137-145).  The rec argument
stands for the recursive call to Value::from_source. -/
def read_array_items {σ : Type} (ops : SourceOps σ)
    (rec : σ → Except Error Value × σ) :
    Nat → σ → Except Error (List (ArrayKey × Value)) × σ
  | 0, s => (.ok [], s)
  | n + 1, s =>
    match rec s with
    | (.error e, s1) => (.error e, s1)
    | (.ok kv, s1) =>
      match (match kv with
             | .int i => some (ArrayKey.int i)
             | .str st => some (ArrayKey.str st)
             | _ => none) with
      | none => (.error (.BadArrayKeyType (ops.offset s1)), s1)
      | some key =>
        match rec s1 with
        | (.error e, s2) => (.error e, s2)
        | (.ok v, s2) =>
          match read_array_items ops rec n s2 with
          | (.error e, s3) => (.error e, s3)
          | (.ok rest, s3) => (.ok ((key, v) :: rest), s3)

/-- read_array (src/parse.rs lines 129-148).  The source expects a literal
semicolon after the dispatch tag (line 130), and performs
Vec::with_capacity(len) at line 133 before the limit comparison at lines
134-136; allocation is not observable in this model, but the comparison and
its position in the control flow are reproduced. -/
def read_array {σ : Type} (ops : SourceOps σ)
    (rec : σ → Except Error Value × σ) (s : σ) : Except Error Value × σ :=
  match expect_char ops s 59 with
  | (.error e, s1) => (.error e, s1)
  | (.ok _, s1) =>
    match parse_before_usize ops s1 58 with
    | (.error e, s2) => (.error e, s2)
    | (.ok len, s2) =>
      match expect_char ops s2 123 with
      | (.error e, s3) => (.error e, s3)
      | (.ok _, s3) =>
        if len > ops.limit s3 then (.error .UnexpectedEof, s3)
        else
          match read_array_items ops rec len s3 with
          | (.error e, s4) => (.error e, s4)
          | (.ok items, s4) =>
            match expect_char ops s4 125 with
            | (.error e, s5) => (.error e, s5)
            | (.ok _, s5) => (.ok (.array items), s5)

/-- Loop body of read_object (src/parse.rs lines 164-197). -/
def read_object_props {σ : Type} (ops : SourceOps σ)
    (rec : σ → Except Error Value × σ) :
    Nat → σ → Except Error (List (PropertyVis × List Nat × Value)) × σ
  | 0, s => (.ok [], s)
  | n + 1, s =>
    match rec s with
    | (.error e, s1) => (.error e, s1)
    | (.ok nv, s1) =>
      match (match nv with
             | .str st => some st
             | _ => none) with
      | none => (.error (.BadObjectKeyType (ops.offset s1)), s1)
      | some rawName =>
        match demangle ops s1 rawName with
        | .error e => (.error e, s1)
        | .ok (name, vis) =>
          match rec s1 with
          | (.error e, s2) => (.error e, s2)
          | (.ok v, s2) =>
            match read_object_props ops rec n s2 with
            | (.error e, s3) => (.error e, s3)
            | (.ok rest, s3) => (.ok ((vis, name, v) :: rest), s3)

/-- read_object (src/parse.rs lines 150-202): class name, property count,
limit check (before the opening brace here, unlike read_array), then the
property loop. -/
def read_object {σ : Type} (ops : SourceOps σ)
    (rec : σ → Except Error Value × σ) (s : σ) : Except Error Value × σ :=
  match expect_char ops s 58 with
  | (.error e, s1) => (.error e, s1)
  | (.ok _, s1) =>
    match parse_before_usize ops s1 58 with
    | (.error e, s2) => (.error e, s2)
    | (.ok len, s2) =>
      match expect_char ops s2 34 with
      | (.error e, s3) => (.error e, s3)
      | (.ok _, s3) =>
        match ops.read_str s3 len with
        | (.error e, s4) => (.error e, s4)
        | (.ok cls, s4) =>
          match expect_char ops s4 34 with
          | (.error e, s5) => (.error e, s5)
          | (.ok _, s5) =>
            match expect_char ops s5 58 with
            | (.error e, s6) => (.error e, s6)
            | (.ok _, s6) =>
              match parse_before_usize ops s6 58 with
              | (.error e, s7) => (.error e, s7)
              | (.ok propertiesLen, s7) =>
                if propertiesLen > ops.limit s7 then (.error .UnexpectedEof, s7)
                else
                  match expect_char ops s7 123 with
                  | (.error e, s8) => (.error e, s8)
                  | (.ok _, s8) =>
                    match read_object_props ops rec propertiesLen s8 with
                    | (.error e, s9) => (.error e, s9)
                    | (.ok props, s9) =>
                      match expect_char ops s9 125 with
                      | (.error e, s10) => (.error e, s10)
                      | (.ok _, s10) => (.ok (.object cls props), s10)

/-- Value::from_source (src/parse.rs lines 71-84): read one dispatch tag and
branch on it.  The Nat fuel only bounds the recursion depth so the Lean
definition is total; Value.parse supplies length + 1 fuel, which exceeds the
depth any run of the source code reaches, because every level of recursion
strictly advances the source by at least one byte. -/
def from_source {σ : Type} (ops : SourceOps σ) : Nat → σ → Except Error Value × σ
  | 0, s => (.error .UnexpectedEof, s)
  | fuel + 1, s =>
    match ops.read_u8_char s with
    | (.error e, s1) => (.error e, s1)
    | (.ok b, s1) =>
      if b = 78 then read_null ops s1
      else if b = 98 then read_bool ops s1
      else if b = 105 then read_int ops s1
      else if b = 100 then read_float ops s1
      else if b = 115 then read_string ops s1
      else if b = 97 then read_array ops (fun s2 => from_source ops fuel s2) s1
      else if b = 79 then read_object ops (fun s2 => from_source ops fuel s2) s1
      else if b = 67 then read_ser ops s1
      else if b = 82 then read_ref ops s1
      else (.error (.BadToken (ops.offset s1)), s1)

/-- Value::parse (src/parse.rs lines 65-68): wrap the input in a fresh
Cursor and run from_source. -/
def Value.parse (source : List Nat) : Except Error Value × Cursor :=
  from_source cursorOps (source.length + 1) ⟨0, source⟩

/-- Value::from_source applied to a freshly constructed ByteReader over the
given input with the given limit. -/
def parseByteReader (input : List Nat) (limit : Nat) : Except Error Value × ByteReader :=
  from_source byteReaderOps (input.length + 1) (ByteReader.new input limit)

/-- Bytes of the document a:0:{} . -/
def docArrayEmpty : List Nat := [97, 58, 48, 58, 123, 125]

/-- Bytes of the document O:0:"":0:{} . -/
def docObjectEmpty : List Nat := [79, 58, 48, 58, 34, 34, 58, 48, 58, 123, 125]

/-- Bytes of the document s:0:""; . -/
def docStringEmpty : List Nat := [115, 58, 48, 58, 34, 34, 59]

/-- Bytes of the document N; . -/
def docNull : List Nat := [78, 59]

/-- Bytes of the document a:99:{} whose declared count 99 exceeds the
Cursor limit, which is the 7-byte buffer length. -/
def docHostileArray : List Nat := [97, 58, 57, 57, 58, 123, 125]

/-- Bytes of the document O:1:"A":99:{} whose declared property count 99
exceeds the Cursor limit, which is the 13-byte buffer length. -/
def docHostileObject : List Nat := [79, 58, 49, 58, 34, 65, 34, 58, 57, 57, 58, 123, 125]

/-- Bytes of the document O:1:"A":1:{s:6:"NUL*NULbar";N;} carrying one
protected-mangled property name. -/
def docProtObject : List Nat :=
  [79, 58, 49, 58, 34, 65, 34, 58, 49, 58, 123, 115, 58, 54, 58, 34,
   0, 42, 0, 98, 97, 114, 34, 59, 78, 59, 125]

/-- Bytes of the document a:1:{a:0:{}s:1:"y";} whose key position holds a
nested array. -/
def docBadKeyArray : List Nat :=
  [97, 58, 49, 58, 123, 97, 58, 48, 58, 123, 125, 115, 58, 49, 58, 34, 121, 34, 59, 125]

/-- Bytes of the document a:1:{s:1:"x";s:1:"y";} whose key is a string. -/
def docGoodKeyArray : List Nat :=
  [97, 58, 49, 58, 123, 115, 58, 49, 58, 34, 120, 34, 59, 115, 58, 49, 58, 34, 121, 34, 59, 125]

/-- Bytes of the document R:1; . -/
def docRef : List Nat := [82, 58, 49, 59]

/-- Bytes of the document i:5; . -/
def docInt : List Nat := [105, 58, 53, 59]

/-! Specification lemmas about the byte-string primitives. -/

theorem posOf_lt_length {ch : Nat} {l : List Nat} {k : Nat} (h : posOf ch l = some k) :
    k < l.length := by
  induction l generalizing k with
  | nil => simp [posOf] at h
  | cons b rest ih =>
    rw [posOf] at h
    split at h
    · cases h; simp
    · rcases Option.map_eq_some'.mp h with ⟨a, ha, hk⟩
      have := ih ha
      simp only [List.length_cons]
      omega

theorem posOf_get {ch : Nat} {l : List Nat} {k : Nat} (h : posOf ch l = some k) :
    l[k]? = some ch := by
  induction l generalizing k with
  | nil => simp [posOf] at h
  | cons b rest ih =>
    rw [posOf] at h
    split at h
    · rename_i hb
      cases h
      simp [hb]
    · rcases Option.map_eq_some'.mp h with ⟨a, ha, hk⟩
      subst hk
      simpa using ih ha

theorem posOf_append {ch : Nat} {l t : List Nat} {k : Nat} (h : posOf ch l = some k) :
    posOf ch (l ++ t) = some k := by
  induction l generalizing k with
  | nil => simp [posOf] at h
  | cons b rest ih =>
    rw [posOf] at h
    rw [List.cons_append, posOf]
    split at h
    · rename_i hb
      cases h
      rw [if_pos hb]
    · rename_i hb
      rcases Option.map_eq_some'.mp h with ⟨a, ha, hk⟩
      rw [if_neg hb, ih ha]
      simp [hk]

theorem bytesFind_spec {s : List Nat} {i ch p : Nat} (h : bytesFind s i ch = some p) :
    i + 1 ≤ p ∧ p < s.length ∧ s[p]? = some ch := by
  rcases Option.map_eq_some'.mp h with ⟨k, hk, hp⟩
  have hlt := posOf_lt_length hk
  have hget := posOf_get hk
  rw [List.length_drop] at hlt
  rw [List.getElem?_drop] at hget
  subst hp
  exact ⟨by omega, by omega, hget⟩

theorem bytesFind_append {s t : List Nat} {i ch p : Nat} (h : bytesFind s i ch = some p) :
    bytesFind (s ++ t) i ch = some p := by
  rcases Option.map_eq_some'.mp h with ⟨k, hk, hp⟩
  have hlt := posOf_lt_length hk
  rw [List.length_drop] at hlt
  unfold bytesFind
  rw [List.drop_append_of_le_length (by omega), posOf_append hk]
  simp [hp]

/-! Success characterizations and prefix-extension lemmas for the Cursor
read primitives: a successful read looks only at bytes of the original
buffer strictly before the end, so it returns the same result over any
extension of that buffer. -/

theorem read_u8_char_ok {o b : Nat} {s : List Nat} {c2 : Cursor}
    (h : Cursor.read_u8_char ⟨o, s⟩ = (.ok b, c2)) :
    c2 = ⟨o + 1, s⟩ ∧ s[o]? = some b ∧ o + 1 < s.length := by
  unfold Cursor.read_u8_char bytesGetU8Char at h
  dsimp only at h
  split at h
  · simp at h
  · rename_i hlen
    split at h
    · rename_i b0 hb0
      simp only [Prod.mk.injEq, Except.ok.injEq] at h
      obtain ⟨hb, hc⟩ := h
      subst hb
      exact ⟨hc.symm, hb0, by omega⟩
    · simp at h

theorem read_u8_char_ext {o b : Nat} {s t : List Nat} {c2 : Cursor}
    (h : Cursor.read_u8_char ⟨o, s⟩ = (.ok b, c2)) :
    c2 = ⟨o + 1, s⟩ ∧ Cursor.read_u8_char ⟨o, s ++ t⟩ = (.ok b, ⟨o + 1, s ++ t⟩) := by
  obtain ⟨hc, hget, hlt⟩ := read_u8_char_ok h
  refine ⟨hc, ?_⟩
  unfold Cursor.read_u8_char bytesGetU8Char
  dsimp only
  rw [if_neg (show ¬ o + 1 ≥ (s ++ t).length by rw [List.length_append]; omega)]
  rw [List.getElem?_append_left (show o < s.length by omega), hget]

theorem read_str_ok {o n : Nat} {s r : List Nat} {c2 : Cursor}
    (h : Cursor.read_str ⟨o, s⟩ n = (.ok r, c2)) :
    c2 = ⟨o + n, s⟩ ∧ r = (s.drop o).take n ∧ o + n < s.length := by
  unfold Cursor.read_str bytesCloneSlice at h
  dsimp only at h
  split at h
  · simp at h
  · rename_i hlen
    simp only [Nat.add_sub_cancel_left, Prod.mk.injEq, Except.ok.injEq] at h
    obtain ⟨hr, hc⟩ := h
    exact ⟨hc.symm, hr.symm, by omega⟩

theorem read_str_ext {o n : Nat} {s t r : List Nat} {c2 : Cursor}
    (h : Cursor.read_str ⟨o, s⟩ n = (.ok r, c2)) :
    c2 = ⟨o + n, s⟩ ∧ Cursor.read_str ⟨o, s ++ t⟩ n = (.ok r, ⟨o + n, s ++ t⟩) := by
  obtain ⟨hc, hr, hlt⟩ := read_str_ok h
  refine ⟨hc, ?_⟩
  unfold Cursor.read_str bytesCloneSlice
  dsimp only
  rw [if_neg (show ¬ o + n ≥ (s ++ t).length by rw [List.length_append]; omega)]
  rw [List.drop_append_of_le_length (show o ≤ s.length by omega)]
  rw [List.take_append_of_le_length (show o + n - o ≤ (s.drop o).length by
    rw [List.length_drop]; omega)]
  simp only [Nat.add_sub_cancel_left, ← hr]

theorem read_until_ok {o ch : Nat} {s r : List Nat} {c2 : Cursor}
    (h : Cursor.read_until ⟨o, s⟩ ch = (.ok r, c2)) :
    ∃ p, bytesFind s o ch = some p ∧ c2 = ⟨p, s⟩ ∧ s[p]? = some ch ∧
      Cursor.read_str ⟨o, s⟩ (p - o) = (.ok r, c2) := by
  unfold Cursor.read_until at h
  dsimp only at h
  split at h
  · rename_i p hp
    obtain ⟨hop, hplen, hpch⟩ := bytesFind_spec hp
    obtain ⟨hc, -, -⟩ := read_str_ok h
    refine ⟨p, hp, ?_, hpch, h⟩
    rw [hc]
    congr 1
    omega
  · simp at h

theorem read_until_ext {o ch : Nat} {s t r : List Nat} {c2 : Cursor}
    (h : Cursor.read_until ⟨o, s⟩ ch = (.ok r, c2)) :
    ∃ p, c2 = ⟨p, s⟩ ∧ s[p]? = some ch ∧
      Cursor.read_until ⟨o, s ++ t⟩ ch = (.ok r, ⟨p, s ++ t⟩) := by
  obtain ⟨p, hp, hc, hpch, hstr⟩ := read_until_ok h
  obtain ⟨hop, -, -⟩ := bytesFind_spec hp
  refine ⟨p, hc, hpch, ?_⟩
  unfold Cursor.read_until
  dsimp only
  rw [bytesFind_append hp]
  have hx := (read_str_ext (t := t) hstr).2
  rw [show o + (p - o) = p by omega] at hx
  exact hx

/-! Lemmas about expect_char and parse_before at the Cursor instance. -/

theorem expect_char_ok {o ch : Nat} {s : List Nat} {u : Unit} {c2 : Cursor}
    (h : expect_char cursorOps ⟨o, s⟩ ch = (.ok u, c2)) :
    c2 = ⟨o + 1, s⟩ ∧ s[o]? = some ch ∧ o + 1 < s.length := by
  unfold expect_char cursorOps at h
  dsimp only at h
  rcases hr : Cursor.read_u8_char ⟨o, s⟩ with ⟨res, c1⟩
  rw [hr] at h
  cases res with
  | error e => simp at h
  | ok b =>
    dsimp only at h
    split at h
    · rename_i hb
      subst hb
      have hc : c1 = c2 := by simpa using congrArg Prod.snd h
      obtain ⟨h1, h2, h3⟩ := read_u8_char_ok hr
      subst hc
      exact ⟨h1, h2, h3⟩
    · simp at h

theorem expect_char_ext {o ch : Nat} {s t : List Nat} {u : Unit} {c2 : Cursor}
    (h : expect_char cursorOps ⟨o, s⟩ ch = (.ok u, c2)) :
    c2 = ⟨o + 1, s⟩ ∧ expect_char cursorOps ⟨o, s ++ t⟩ ch = (.ok u, ⟨o + 1, s ++ t⟩) := by
  obtain ⟨hc, hget, hlt⟩ := expect_char_ok h
  refine ⟨hc, ?_⟩
  have hru : Cursor.read_u8_char ⟨o, s⟩ = (.ok ch, ⟨o + 1, s⟩) := by
    unfold Cursor.read_u8_char bytesGetU8Char
    dsimp only
    rw [if_neg (by omega), hget]
  have hx := (read_u8_char_ext (t := t) hru).2
  unfold expect_char cursorOps
  dsimp only
  rw [hx]
  cases u
  simp

theorem parse_before_usize_ok {o ch n : Nat} {s : List Nat} {c2 : Cursor}
    (h : parse_before_usize cursorOps ⟨o, s⟩ ch = (.ok n, c2)) :
    ∃ p bs, c2 = ⟨p, s⟩ ∧ s[p]? = some ch ∧
      Cursor.read_until ⟨o, s⟩ ch = (.ok bs, ⟨p, s⟩) ∧ parseUsize bs = some n := by
  unfold parse_before_usize cursorOps at h
  dsimp only at h
  rcases hr : Cursor.read_until ⟨o, s⟩ ch with ⟨res, c1⟩
  rw [hr] at h
  cases res with
  | error e => simp at h
  | ok bs =>
    dsimp only at h
    rcases hn : parseUsize bs with - | m
    · rw [hn] at h; simp at h
    · rw [hn] at h
      have hm : m = n := by simpa using congrArg Prod.fst h
      have hc : c1 = c2 := by simpa using congrArg Prod.snd h
      subst hm
      subst hc
      obtain ⟨p, hfind, hcp, hpch, -⟩ := read_until_ok hr
      subst hcp
      exact ⟨p, bs, rfl, hpch, rfl, hn⟩

theorem parse_before_usize_ext {o ch n : Nat} {s t : List Nat} {c2 : Cursor}
    (h : parse_before_usize cursorOps ⟨o, s⟩ ch = (.ok n, c2)) :
    ∃ p, c2 = ⟨p, s⟩ ∧ s[p]? = some ch ∧
      parse_before_usize cursorOps ⟨o, s ++ t⟩ ch = (.ok n, ⟨p, s ++ t⟩) := by
  obtain ⟨p, bs, hc, hpch, hru, hn⟩ := parse_before_usize_ok h
  obtain ⟨p2, hp2, -, hext⟩ := read_until_ext (t := t) hru
  have hpp : p2 = p := by cases hp2; rfl
  subst hpp
  refine ⟨p2, hc, hpch, ?_⟩
  unfold parse_before_usize cursorOps
  dsimp only
  rw [hext]
  dsimp only
  rw [hn]

theorem parse_before_i64_ok {o ch : Nat} {n : Int} {s : List Nat} {c2 : Cursor}
    (h : parse_before_i64 cursorOps ⟨o, s⟩ ch = (.ok n, c2)) :
    ∃ p bs, c2 = ⟨p, s⟩ ∧ s[p]? = some ch ∧
      Cursor.read_until ⟨o, s⟩ ch = (.ok bs, ⟨p, s⟩) ∧ parseI64 bs = some n := by
  unfold parse_before_i64 cursorOps at h
  dsimp only at h
  rcases hr : Cursor.read_until ⟨o, s⟩ ch with ⟨res, c1⟩
  rw [hr] at h
  cases res with
  | error e => simp at h
  | ok bs =>
    dsimp only at h
    rcases hn : parseI64 bs with - | m
    · rw [hn] at h; simp at h
    · rw [hn] at h
      have hm : m = n := by simpa using congrArg Prod.fst h
      have hc : c1 = c2 := by simpa using congrArg Prod.snd h
      subst hm
      subst hc
      obtain ⟨p, hfind, hcp, hpch, -⟩ := read_until_ok hr
      subst hcp
      exact ⟨p, bs, rfl, hpch, rfl, hn⟩

theorem parse_before_i64_ext {o ch : Nat} {n : Int} {s t : List Nat} {c2 : Cursor}
    (h : parse_before_i64 cursorOps ⟨o, s⟩ ch = (.ok n, c2)) :
    ∃ p, c2 = ⟨p, s⟩ ∧ s[p]? = some ch ∧
      parse_before_i64 cursorOps ⟨o, s ++ t⟩ ch = (.ok n, ⟨p, s ++ t⟩) := by
  obtain ⟨p, bs, hc, hpch, hru, hn⟩ := parse_before_i64_ok h
  obtain ⟨p2, hp2, -, hext⟩ := read_until_ext (t := t) hru
  have hpp : p2 = p := by cases hp2; rfl
  subst hpp
  refine ⟨p2, hc, hpch, ?_⟩
  unfold parse_before_i64 cursorOps
  dsimp only
  rw [hext]
  dsimp only
  rw [hn]

theorem parse_before_f64_ok {o ch : Nat} {raw s : List Nat} {c2 : Cursor}
    (h : parse_before_f64 cursorOps ⟨o, s⟩ ch = (.ok raw, c2)) :
    ∃ p, c2 = ⟨p, s⟩ ∧ s[p]? = some ch ∧
      Cursor.read_until ⟨o, s⟩ ch = (.ok raw, ⟨p, s⟩) ∧ parseF64Ok raw = true := by
  unfold parse_before_f64 cursorOps at h
  dsimp only at h
  rcases hr : Cursor.read_until ⟨o, s⟩ ch with ⟨res, c1⟩
  rw [hr] at h
  cases res with
  | error e => simp at h
  | ok bs =>
    dsimp only at h
    split at h
    · rename_i hok
      have hm : bs = raw := by simpa using congrArg Prod.fst h
      have hc : c1 = c2 := by simpa using congrArg Prod.snd h
      subst hm
      subst hc
      obtain ⟨p, hfind, hcp, hpch, -⟩ := read_until_ok hr
      subst hcp
      exact ⟨p, rfl, hpch, rfl, hok⟩
    · simp at h

theorem parse_before_f64_ext {o ch : Nat} {raw s t : List Nat} {c2 : Cursor}
    (h : parse_before_f64 cursorOps ⟨o, s⟩ ch = (.ok raw, c2)) :
    ∃ p, c2 = ⟨p, s⟩ ∧ s[p]? = some ch ∧
      parse_before_f64 cursorOps ⟨o, s ++ t⟩ ch = (.ok raw, ⟨p, s ++ t⟩) := by
  obtain ⟨p, hc, hpch, hru, hok⟩ := parse_before_f64_ok h
  obtain ⟨p2, hp2, -, hext⟩ := read_until_ext (t := t) hru
  have hpp : p2 = p := by cases hp2; rfl
  subst hpp
  refine ⟨p2, hc, hpch, ?_⟩
  unfold parse_before_f64 cursorOps
  dsimp only
  rw [hext]
  dsimp only
  simp [hok]

/-- Projection facts for the Cursor instance of the Source record. -/
theorem cursorOps_read_u8_char : cursorOps.read_u8_char = Cursor.read_u8_char := rfl

theorem cursorOps_read_str : cursorOps.read_str = Cursor.read_str := rfl

theorem cursorOps_read_until : cursorOps.read_until = Cursor.read_until := rfl

theorem cursorOps_offset : cursorOps.offset = Cursor.offset := rfl

/-! Dead-branch lemmas.  On a Cursor, a successful parse_before leaves the
offset exactly at the delimiter byte it searched for (the delimiter is not
consumed), so the expect_char that follows it in read_string, read_array,
read_object and read_ser always reads that delimiter and fails. -/

theorem expect_char_at_ne (ch : Nat) {p d : Nat} {s : List Nat}
    (hgot : s[p]? = some d) (hne : d ≠ ch) :
    ∃ e c2, expect_char cursorOps ⟨p, s⟩ ch = (.error e, c2) := by
  by_cases hlen : p + 1 ≥ s.length
  · refine ⟨.UnexpectedEof, ⟨p, s⟩, ?_⟩
    have hr : Cursor.read_u8_char ⟨p, s⟩ = (.error .UnexpectedEof, ⟨p, s⟩) := by
      unfold Cursor.read_u8_char
      dsimp only
      rw [if_pos hlen]
    simp [expect_char, cursorOps, hr]
  · have hr : Cursor.read_u8_char ⟨p, s⟩ = (.ok d, ⟨p + 1, s⟩) := by
      unfold Cursor.read_u8_char bytesGetU8Char
      dsimp only
      rw [if_neg hlen, hgot]
    refine ⟨.BadToken (p + 1), ⟨p + 1, s⟩, ?_⟩
    simp [expect_char, cursorOps, hr, hne]

theorem read_string_dead (c : Cursor) :
    ∃ e c2, read_string cursorOps c = (.error e, c2) := by
  obtain ⟨o, s⟩ := c
  rcases h1 : expect_char cursorOps ⟨o, s⟩ 58 with ⟨res1, c1⟩
  cases res1 with
  | error e => exact ⟨e, c1, by simp [read_string, h1]⟩
  | ok u =>
    cases u
    obtain ⟨hc1, -, -⟩ := expect_char_ok h1
    subst hc1
    rcases h2 : parse_before_usize cursorOps ⟨o + 1, s⟩ 58 with ⟨res2, c2⟩
    cases res2 with
    | error e => exact ⟨e, c2, by simp [read_string, h1, h2]⟩
    | ok len =>
      obtain ⟨p, bs, hc2, hpch, -, -⟩ := parse_before_usize_ok h2
      subst hc2
      obtain ⟨e, c3, h3⟩ := expect_char_at_ne 34 hpch (by decide)
      exact ⟨e, c3, by simp [read_string, h1, h2, h3]⟩

theorem read_ser_dead (c : Cursor) :
    ∃ e c2, read_ser cursorOps c = (.error e, c2) := by
  obtain ⟨o, s⟩ := c
  rcases h1 : expect_char cursorOps ⟨o, s⟩ 58 with ⟨res1, c1⟩
  cases res1 with
  | error e => exact ⟨e, c1, by simp [read_ser, h1]⟩
  | ok u =>
    cases u
    obtain ⟨hc1, -, -⟩ := expect_char_ok h1
    subst hc1
    rcases h2 : parse_before_usize cursorOps ⟨o + 1, s⟩ 58 with ⟨res2, c2⟩
    cases res2 with
    | error e => exact ⟨e, c2, by simp [read_ser, h1, h2]⟩
    | ok len =>
      obtain ⟨p, bs, hc2, hpch, -, -⟩ := parse_before_usize_ok h2
      subst hc2
      obtain ⟨e, c3, h3⟩ := expect_char_at_ne 34 hpch (by decide)
      exact ⟨e, c3, by simp [read_ser, h1, h2, h3]⟩

theorem read_array_dead (rec : Cursor → Except Error Value × Cursor) (c : Cursor) :
    ∃ e c2, read_array cursorOps rec c = (.error e, c2) := by
  obtain ⟨o, s⟩ := c
  rcases h1 : expect_char cursorOps ⟨o, s⟩ 59 with ⟨res1, c1⟩
  cases res1 with
  | error e => exact ⟨e, c1, by simp [read_array, h1]⟩
  | ok u =>
    cases u
    obtain ⟨hc1, -, -⟩ := expect_char_ok h1
    subst hc1
    rcases h2 : parse_before_usize cursorOps ⟨o + 1, s⟩ 58 with ⟨res2, c2⟩
    cases res2 with
    | error e => exact ⟨e, c2, by simp [read_array, h1, h2]⟩
    | ok len =>
      obtain ⟨p, bs, hc2, hpch, -, -⟩ := parse_before_usize_ok h2
      subst hc2
      obtain ⟨e, c3, h3⟩ := expect_char_at_ne 123 hpch (by decide)
      exact ⟨e, c3, by simp [read_array, h1, h2, h3]⟩

theorem read_object_dead (rec : Cursor → Except Error Value × Cursor) (c : Cursor) :
    ∃ e c2, read_object cursorOps rec c = (.error e, c2) := by
  obtain ⟨o, s⟩ := c
  rcases h1 : expect_char cursorOps ⟨o, s⟩ 58 with ⟨res1, c1⟩
  cases res1 with
  | error e => exact ⟨e, c1, by simp [read_object, h1]⟩
  | ok u =>
    cases u
    obtain ⟨hc1, -, -⟩ := expect_char_ok h1
    subst hc1
    rcases h2 : parse_before_usize cursorOps ⟨o + 1, s⟩ 58 with ⟨res2, c2⟩
    cases res2 with
    | error e => exact ⟨e, c2, by simp [read_object, h1, h2]⟩
    | ok len =>
      obtain ⟨p, bs, hc2, hpch, -, -⟩ := parse_before_usize_ok h2
      subst hc2
      obtain ⟨e, c3, h3⟩ := expect_char_at_ne 34 hpch (by decide)
      exact ⟨e, c3, by simp [read_object, h1, h2, h3]⟩

/-! Prefix-extension lemmas for the dispatch branches that can succeed. -/

theorem read_null_ext {o : Nat} {s t : List Nat} {v : Value} {c2 : Cursor}
    (h : read_null cursorOps ⟨o, s⟩ = (.ok v, c2)) :
    ∃ q, c2 = ⟨q, s⟩ ∧ read_null cursorOps ⟨o, s ++ t⟩ = (.ok v, ⟨q, s ++ t⟩) := by
  unfold read_null at h
  rcases h1 : expect_char cursorOps ⟨o, s⟩ 59 with ⟨res1, c1⟩
  rw [h1] at h
  cases res1 with
  | error e => simp at h
  | ok u =>
    cases u
    dsimp only at h
    obtain ⟨hc1, hx1⟩ := expect_char_ext (t := t) h1
    subst hc1
    have hv : Value.null = v := by simpa using congrArg Prod.fst h
    have hcc : (⟨o + 1, s⟩ : Cursor) = c2 := by simpa using congrArg Prod.snd h
    exact ⟨o + 1, hcc.symm, by simp [read_null, hx1, ← hv]⟩

theorem read_bool_ext {o : Nat} {s t : List Nat} {v : Value} {c2 : Cursor}
    (h : read_bool cursorOps ⟨o, s⟩ = (.ok v, c2)) :
    ∃ q, c2 = ⟨q, s⟩ ∧ read_bool cursorOps ⟨o, s ++ t⟩ = (.ok v, ⟨q, s ++ t⟩) := by
  unfold read_bool at h
  rcases h1 : expect_char cursorOps ⟨o, s⟩ 58 with ⟨res1, c1⟩
  rw [h1] at h
  cases res1 with
  | error e => simp at h
  | ok u =>
    cases u
    dsimp only at h
    rw [cursorOps_read_u8_char] at h
    obtain ⟨hc1, hx1⟩ := expect_char_ext (t := t) h1
    subst hc1
    rcases h2 : Cursor.read_u8_char ⟨o + 1, s⟩ with ⟨res2, c2x⟩
    rw [h2] at h
    cases res2 with
    | error e => simp at h
    | ok b =>
      dsimp only at h
      obtain ⟨hc2, hx2⟩ := read_u8_char_ext (t := t) h2
      subst hc2
      split at h
      · simp at h
      · rename_i bv hbv
        rcases h3 : expect_char cursorOps ⟨o + 1 + 1, s⟩ 59 with ⟨res3, c3⟩
        rw [h3] at h
        cases res3 with
        | error e => simp at h
        | ok u2 =>
          cases u2
          dsimp only at h
          obtain ⟨hc3, hx3⟩ := expect_char_ext (t := t) h3
          subst hc3
          have hv : Value.bool bv = v := by simpa using congrArg Prod.fst h
          have hcc : (⟨o + 1 + 1 + 1, s⟩ : Cursor) = c2 := by
            simpa using congrArg Prod.snd h
          refine ⟨o + 1 + 1 + 1, hcc.symm, ?_⟩
          simp [read_bool, cursorOps_read_u8_char, hx1, hx2, hx3, hbv, ← hv]

theorem read_int_ext {o : Nat} {s t : List Nat} {v : Value} {c2 : Cursor}
    (h : read_int cursorOps ⟨o, s⟩ = (.ok v, c2)) :
    ∃ q, c2 = ⟨q, s⟩ ∧ read_int cursorOps ⟨o, s ++ t⟩ = (.ok v, ⟨q, s ++ t⟩) := by
  unfold read_int at h
  rcases h1 : expect_char cursorOps ⟨o, s⟩ 58 with ⟨res1, c1⟩
  rw [h1] at h
  cases res1 with
  | error e => simp at h
  | ok u =>
    cases u
    dsimp only at h
    obtain ⟨hc1, hx1⟩ := expect_char_ext (t := t) h1
    subst hc1
    rcases h2 : parse_before_i64 cursorOps ⟨o + 1, s⟩ 59 with ⟨res2, c2x⟩
    rw [h2] at h
    cases res2 with
    | error e => simp at h
    | ok n =>
      dsimp only at h
      obtain ⟨p, hc2, -, hx2⟩ := parse_before_i64_ext (t := t) h2
      subst hc2
      have hv : Value.int n = v := by simpa using congrArg Prod.fst h
      have hcc : (⟨p, s⟩ : Cursor) = c2 := by simpa using congrArg Prod.snd h
      exact ⟨p, hcc.symm, by simp [read_int, hx1, hx2, ← hv]⟩

theorem read_float_ext {o : Nat} {s t : List Nat} {v : Value} {c2 : Cursor}
    (h : read_float cursorOps ⟨o, s⟩ = (.ok v, c2)) :
    ∃ q, c2 = ⟨q, s⟩ ∧ read_float cursorOps ⟨o, s ++ t⟩ = (.ok v, ⟨q, s ++ t⟩) := by
  unfold read_float at h
  rcases h1 : expect_char cursorOps ⟨o, s⟩ 58 with ⟨res1, c1⟩
  rw [h1] at h
  cases res1 with
  | error e => simp at h
  | ok u =>
    cases u
    dsimp only at h
    obtain ⟨hc1, hx1⟩ := expect_char_ext (t := t) h1
    subst hc1
    rcases h2 : parse_before_f64 cursorOps ⟨o + 1, s⟩ 59 with ⟨res2, c2x⟩
    rw [h2] at h
    cases res2 with
    | error e => simp at h
    | ok raw =>
      dsimp only at h
      obtain ⟨p, hc2, -, hx2⟩ := parse_before_f64_ext (t := t) h2
      subst hc2
      have hv : Value.float raw = v := by simpa using congrArg Prod.fst h
      have hcc : (⟨p, s⟩ : Cursor) = c2 := by simpa using congrArg Prod.snd h
      exact ⟨p, hcc.symm, by simp [read_float, hx1, hx2, ← hv]⟩

theorem read_ref_ext {o : Nat} {s t : List Nat} {v : Value} {c2 : Cursor}
    (h : read_ref cursorOps ⟨o, s⟩ = (.ok v, c2)) :
    ∃ q, c2 = ⟨q, s⟩ ∧ read_ref cursorOps ⟨o, s ++ t⟩ = (.ok v, ⟨q, s ++ t⟩) := by
  unfold read_ref at h
  rcases h1 : expect_char cursorOps ⟨o, s⟩ 58 with ⟨res1, c1⟩
  rw [h1] at h
  cases res1 with
  | error e => simp at h
  | ok u =>
    cases u
    dsimp only at h
    obtain ⟨hc1, hx1⟩ := expect_char_ext (t := t) h1
    subst hc1
    rcases h2 : parse_before_usize cursorOps ⟨o + 1, s⟩ 59 with ⟨res2, c2x⟩
    rw [h2] at h
    cases res2 with
    | error e => simp at h
    | ok n =>
      dsimp only at h
      obtain ⟨p, hc2, -, hx2⟩ := parse_before_usize_ext (t := t) h2
      subst hc2
      have hv : Value.reference n = v := by simpa using congrArg Prod.fst h
      have hcc : (⟨p, s⟩ : Cursor) = c2 := by simpa using congrArg Prod.snd h
      exact ⟨p, hcc.symm, by simp [read_ref, hx1, hx2, ← hv]⟩

/-! Failure atomicity of the Cursor primitives. -/

theorem read_u8_char_err {c c2 : Cursor} {e : Error}
    (h : Cursor.read_u8_char c = (.error e, c2)) : c2 = c := by
  unfold Cursor.read_u8_char bytesGetU8Char at h
  split at h
  · have hx : c = c2 := by simpa using congrArg Prod.snd h
    exact hx.symm
  · split at h
    · simp at h
    · have hx : c = c2 := by simpa using congrArg Prod.snd h
      exact hx.symm

theorem read_str_err {c c2 : Cursor} {n : Nat} {e : Error}
    (h : Cursor.read_str c n = (.error e, c2)) : c2 = c := by
  unfold Cursor.read_str bytesCloneSlice at h
  split at h
  · have hx : c = c2 := by simpa using congrArg Prod.snd h
    exact hx.symm
  · dsimp only at h
    simp at h

theorem read_until_err {c c2 : Cursor} {ch : Nat} {e : Error}
    (h : Cursor.read_until c ch = (.error e, c2)) : c2 = c := by
  unfold Cursor.read_until at h
  split at h
  · exact read_str_err h
  · have hx : c = c2 := by simpa using congrArg Prod.snd h
    exact hx.symm

/-! The claims. -/

/-- Claim C1: the spec asserts that the minimal documents a:0:{},
O:0:"":0:{}, s:0:""; and N; decode to the empty array, the empty object,
the empty string and null.  The code fails on all four: read_array expects
a semicolon after the tag where the format has a colon (BadToken at offset
2); read_until leaves the offset on the delimiter, so the expect of the
opening quote in read_object and read_string reads the colon (BadToken at
offset 4); and the off-by-one end-of-input guard in read_u8_char makes the
final semicolon of N; unreadable (UnexpectedEof). -/
theorem claim_C1 :
    Value.parse docArrayEmpty = (.error (.BadToken 2), ⟨2, docArrayEmpty⟩) ∧
    Value.parse docObjectEmpty = (.error (.BadToken 4), ⟨4, docObjectEmpty⟩) ∧
    Value.parse docStringEmpty = (.error (.BadToken 4), ⟨4, docStringEmpty⟩) ∧
    Value.parse docNull = (.error .UnexpectedEof, ⟨1, docNull⟩) :=
  ⟨rfl, rfl, rfl, rfl⟩

/-- Claim C2: the spec asserts that read_until consumes the bytes up to and
including the first delimiter, returns exactly the bytes before it, and
fails with UnexpectedEof when the delimiter is absent.  On the bytes of
"ab;c" the Cursor stops at offset 2, the delimiter position, instead of 3,
so the delimiter is not consumed; the ByteReader on "a;c" returns the
delimiter inside the result, and on "abc" returns Ok with the whole rest
instead of failing. -/
theorem claim_C2 :
    Cursor.read_until ⟨0, [97, 98, 59, 99]⟩ 59 = (.ok [97, 98], ⟨2, [97, 98, 59, 99]⟩) ∧
    ByteReader.read_until ⟨[97, 59, 99], 0, 3⟩ 59 = (.ok [97, 59], ⟨[99], 0, 3⟩) ∧
    ByteReader.read_until ⟨[97, 98, 99], 0, 3⟩ 59 = (.ok [97, 98, 99], ⟨[], 0, 3⟩) :=
  ⟨rfl, rfl, rfl⟩

/-- Claim C3: the spec asserts that on a Cursor readByte succeeds whenever
one byte remains and readString n succeeds whenever n bytes remain.  With
exactly one byte remaining read_u8_char fails with UnexpectedEof because
its guard is offset + 1 >= len instead of >, and read_str of the final two
bytes of a two-byte buffer fails for the same reason. -/
theorem claim_C3 :
    Cursor.read_u8_char ⟨0, [78]⟩ = (.error .UnexpectedEof, ⟨0, [78]⟩) ∧
    Cursor.read_str ⟨0, [97, 98]⟩ 2 = (.error .UnexpectedEof, ⟨0, [97, 98]⟩) :=
  ⟨rfl, rfl⟩

/-- Claim C4: the spec asserts that a declared count above the limit fails
with UnexpectedEof before any allocation.  For the Cursor the limit is the
buffer length, so a:99:{} over 7 bytes and O:1:"A":99:{} over 13 bytes have
counts above the limit, yet decoding fails with BadToken before the count
is even read; moreover in read_array the Vec::with_capacity(count) sits
before the limit comparison in the source. -/
theorem claim_C4 :
    (99 > docHostileArray.length ∧
      Value.parse docHostileArray = (.error (.BadToken 2), ⟨2, docHostileArray⟩)) ∧
    (99 > docHostileObject.length ∧
      Value.parse docHostileObject = (.error (.BadToken 4), ⟨4, docHostileObject⟩)) :=
  ⟨⟨by decide, rfl⟩, ⟨by decide, rfl⟩⟩

/-- Claim C5: the isolated demangling logic in read_object does map
NULFooNULbar to Private(Foo, bar), NUL*NULbar to Protected(bar), bar to
Public(bar) and a missing second NUL to UnexpectedEof, exactly as claimed;
but object decoding never reaches it: an object document carrying a
protected property fails with BadToken at offset 4 because read_until does
not consume the delimiter. -/
theorem claim_C5 :
    demangle cursorOps (⟨0, []⟩ : Cursor) [0, 70, 111, 111, 0, 98, 97, 114] =
      .ok ([98, 97, 114], .priv [70, 111, 111]) ∧
    demangle cursorOps (⟨0, []⟩ : Cursor) [0, 42, 0, 98, 97, 114] =
      .ok ([98, 97, 114], .prot) ∧
    demangle cursorOps (⟨0, []⟩ : Cursor) [98, 97, 114] = .ok ([98, 97, 114], .pub) ∧
    demangle cursorOps (⟨0, []⟩ : Cursor) [0, 70, 111, 111] = .error .UnexpectedEof ∧
    Value.parse docProtObject = (.error (.BadToken 4), ⟨4, docProtObject⟩) :=
  ⟨rfl, rfl, rfl, rfl, rfl⟩

/-- Claim C6: the spec asserts that a non-Int, non-String key yields
BadArrayKeyType at the key offset and that Int or String keys are accepted.
Both the bad-key array a:1:{a:0:{}s:1:"y";} and the good-key array
a:1:{s:1:"x";s:1:"y";} instead fail with BadToken at offset 2, because
read_array expects a semicolon where the format has a colon, so the key
check is never reached. -/
theorem claim_C6 :
    Value.parse docBadKeyArray = (.error (.BadToken 2), ⟨2, docBadKeyArray⟩) ∧
    Value.parse docGoodKeyArray = (.error (.BadToken 2), ⟨2, docGoodKeyArray⟩) :=
  ⟨rfl, rfl⟩

/-- Claim C7: R:1; does decode to Reference(1) on a Cursor, but not on a
ByteReader: BufRead::read_until hands the delimiter back as part of the
number string, so the usize conversion fails and from_source over a
ByteReader on the same bytes reports BadNumber at offset 0. -/
theorem claim_C7 :
    Value.parse docRef = (.ok (.reference 1), ⟨3, docRef⟩) ∧
    parseByteReader docRef 4 = (.error (.BadNumber 0), ⟨[], 0, 4⟩) :=
  ⟨rfl, rfl⟩

/-- Claim C8: decoding is deterministic.  Value.parse consults nothing but
the input bytes, so two runs on the same byte sequence return the same
result, and on failure the same error with the same offset. -/
theorem claim_C8 (s : List Nat) (r1 r2 : Except Error Value × Cursor)
    (h1 : r1 = Value.parse s) (h2 : r2 = Value.parse s) :
    r1 = r2 ∧ ∀ e1 c1 e2 c2, r1 = (.error e1, c1) → r2 = (.error e2, c2) →
      e1 = e2 ∧ c1.offset = c2.offset := by
  subst h1
  subst h2
  refine ⟨rfl, ?_⟩
  intro e1 c1 e2 c2 ha hb
  rw [ha] at hb
  have he : e1 = e2 := by simpa using congrArg Prod.fst hb
  have hc : c1 = c2 := by simpa using congrArg Prod.snd hb
  exact ⟨he, by rw [hc]⟩

/-- Witness for claim C8 at the concrete document N; . -/
theorem claim_C8_witness :
    Value.parse docNull = Value.parse docNull ∧
    Error.UnexpectedEof = Error.UnexpectedEof ∧ (1 : Nat) = 1 := by
  have h := claim_C8 docNull (Value.parse docNull) (Value.parse docNull) rfl rfl
  refine ⟨h.1, (h.2 .UnexpectedEof ⟨1, docNull⟩ .UnexpectedEof ⟨1, docNull⟩ rfl rfl).1, ?_⟩
  exact (h.2 .UnexpectedEof ⟨1, docNull⟩ .UnexpectedEof ⟨1, docNull⟩ rfl rfl).2

/-- Claim C9: Value.parse never requires the input to be fully consumed:
whenever parsing a buffer succeeds, parsing that buffer with any trailing
bytes appended succeeds with the same value and the same final offset, and
no end-of-document check is performed after the root value. -/
theorem claim_C9 (s t : List Nat) (v : Value) (o : Nat)
    (h : Value.parse s = (.ok v, ⟨o, s⟩)) :
    Value.parse (s ++ t) = (.ok v, ⟨o, s ++ t⟩) := by
  unfold Value.parse at h ⊢
  simp only [from_source] at h ⊢
  rw [cursorOps_read_u8_char] at h ⊢
  rcases h1 : Cursor.read_u8_char ⟨0, s⟩ with ⟨res1, c1⟩
  rw [h1] at h
  cases res1 with
  | error e => simp at h
  | ok b =>
    dsimp only at h
    obtain ⟨hc1, hx1⟩ := read_u8_char_ext (t := t) h1
    subst hc1
    rw [hx1]
    dsimp only
    by_cases h78 : b = 78
    · rw [if_pos h78] at h ⊢
      obtain ⟨q, hq, hxn⟩ := read_null_ext (t := t) h
      have hqo : o = q := by simpa using congrArg Cursor.offset hq
      subst hqo
      exact hxn
    · rw [if_neg h78] at h ⊢
      by_cases h98 : b = 98
      · rw [if_pos h98] at h ⊢
        obtain ⟨q, hq, hxn⟩ := read_bool_ext (t := t) h
        have hqo : o = q := by simpa using congrArg Cursor.offset hq
        subst hqo
        exact hxn
      · rw [if_neg h98] at h ⊢
        by_cases h105 : b = 105
        · rw [if_pos h105] at h ⊢
          obtain ⟨q, hq, hxn⟩ := read_int_ext (t := t) h
          have hqo : o = q := by simpa using congrArg Cursor.offset hq
          subst hqo
          exact hxn
        · rw [if_neg h105] at h ⊢
          by_cases h100 : b = 100
          · rw [if_pos h100] at h ⊢
            obtain ⟨q, hq, hxn⟩ := read_float_ext (t := t) h
            have hqo : o = q := by simpa using congrArg Cursor.offset hq
            subst hqo
            exact hxn
          · rw [if_neg h100] at h ⊢
            by_cases h115 : b = 115
            · rw [if_pos h115] at h
              obtain ⟨e, cx, hdead⟩ := read_string_dead ⟨0 + 1, s⟩
              rw [hdead] at h
              simp at h
            · rw [if_neg h115] at h ⊢
              by_cases h97 : b = 97
              · rw [if_pos h97] at h
                obtain ⟨e, cx, hdead⟩ := read_array_dead
                  (fun s2 => from_source cursorOps s.length s2) ⟨0 + 1, s⟩
                rw [hdead] at h
                simp at h
              · rw [if_neg h97] at h ⊢
                by_cases h79 : b = 79
                · rw [if_pos h79] at h
                  obtain ⟨e, cx, hdead⟩ := read_object_dead
                    (fun s2 => from_source cursorOps s.length s2) ⟨0 + 1, s⟩
                  rw [hdead] at h
                  simp at h
                · rw [if_neg h79] at h ⊢
                  by_cases h67 : b = 67
                  · rw [if_pos h67] at h
                    obtain ⟨e, cx, hdead⟩ := read_ser_dead ⟨0 + 1, s⟩
                    rw [hdead] at h
                    simp at h
                  · rw [if_neg h67] at h ⊢
                    by_cases h82 : b = 82
                    · rw [if_pos h82] at h ⊢
                      obtain ⟨q, hq, hxn⟩ := read_ref_ext (t := t) h
                      have hqo : o = q := by simpa using congrArg Cursor.offset hq
                      subst hqo
                      exact hxn
                    · rw [if_neg h82] at h
                      simp at h

/-- Witness for claim C9: i:5; parses to Int 5 ending at offset 3, and with
a trailing byte appended the result is unchanged. -/
theorem claim_C9_witness :
    Value.parse docInt = (.ok (.int 5), ⟨3, docInt⟩) ∧
    Value.parse (docInt ++ [120]) = (.ok (.int 5), ⟨3, docInt ++ [120]⟩) :=
  ⟨rfl, claim_C9 docInt [120] (.int 5) 3 rfl⟩

/-- Claim C10: every Cursor read primitive is atomic on failure: whenever
read_u8_char, read_str or read_until returns an error, the returned Cursor
is exactly the input Cursor, offset included. -/
theorem claim_C10 (c : Cursor) (n ch : Nat) :
    (∀ e c2, Cursor.read_u8_char c = (.error e, c2) → c2 = c) ∧
    (∀ e c2, Cursor.read_str c n = (.error e, c2) → c2 = c) ∧
    (∀ e c2, Cursor.read_until c ch = (.error e, c2) → c2 = c) :=
  ⟨fun _ _ h => read_u8_char_err h,
   fun _ _ h => read_str_err h,
   fun _ _ h => read_until_err h⟩

/-- Witness for claim C10 at the empty buffer, where read_u8_char fails and
leaves the Cursor untouched. -/
theorem claim_C10_witness :
    Cursor.read_u8_char ⟨0, []⟩ = (.error .UnexpectedEof, ⟨0, []⟩) ∧
    (⟨0, []⟩ : Cursor) = ⟨0, []⟩ :=
  ⟨rfl, (claim_C10 ⟨0, []⟩ 1 59).1 .UnexpectedEof ⟨0, []⟩ rfl⟩

end Phpser
